import Mathlib

/-!
Verification development for the node lifecycle and chain-head subscription
manager of this repository (source: src/store/client/gethService.js).

The JavaScript service is shallowly embedded: JS strings become `List Char`,
JS values that flow through the service become the inductive `JsValue`,
the mutable fields of the `GethService` singleton become the record `SState`,
and every method becomes a pure function that returns the successor state
together with the ordered list of outward effects (RPC calls issued and
redux dispatches).  The event-emitter collaborator (`geth.on` /
`geth.removeListener` / event delivery) is embedded as an explicit listener
list inside the state, with handler identity tracked by the inductive
`Handler` (arrow closures and bare method references are distinct values,
exactly as they are distinct object references in JavaScript).
-/

namespace GethService

/-! ## Numeric normalizer (isHex / hexToNumberString / toNumberString)

Source lines 20-22:
  const isHex = str => typeof str === 'string' && str.startsWith('0x')
  const hexToNumberString = str => new BigNumber(str).toString(10)
  const toNumberString = str => (isHex(str) ? hexToNumberString(str) : str)

JS strings are embedded as `List Char`.  `BigNumber` performs
arbitrary-precision base-16 parsing of a `0x`-prefixed string and
`toString(10)` renders the canonical decimal numeral; this pair is embedded
as `parseHexDigitsList` (exact on well-formed hex strings) followed by
`Nat.repr`. -/

/-- JS string model. -/
abbrev JStr := List Char

/-- Value of a hex digit character; `BigNumber` accepts both cases.
Only meaningful on actual hex digit characters. -/
def hexDigitVal (c : Char) : Nat :=
  if 48 ≤ c.toNat ∧ c.toNat ≤ 57 then c.toNat - 48
  else if 97 ≤ c.toNat ∧ c.toNat ≤ 102 then c.toNat - 87
  else if 65 ≤ c.toNat ∧ c.toNat ≤ 70 then c.toNat - 55
  else 0

/-- Lower-case hex digit character of a value below 16. -/
def hexDigitChar (n : Nat) : Char :=
  if n < 10 then Char.ofNat (48 + n) else Char.ofNat (87 + n)

/-- Big-endian base-16 parse, as `BigNumber` does for the digits after `0x`. -/
def parseHexDigitsList (l : List Char) : Nat :=
  l.foldl (fun a c => a * 16 + hexDigitVal c) 0

/-- `str.startsWith('0x')` on the string model (the `typeof` check of the
source is subsumed by the type of the argument). -/
def isHex (s : JStr) : Bool :=
  match s with
  | '0' :: 'x' :: _ => true
  | _ => false

/-- `new BigNumber(str).toString(10)` for a `0x`-prefixed string: parse the
digits after the two-character marker in base 16 with arbitrary precision and
render the canonical decimal numeral. -/
def hexToNumberString (s : JStr) : JStr :=
  (Nat.repr (parseHexDigitsList (s.drop 2))).data

/-- Source line 22: hex strings are converted, everything else passes
through unchanged. -/
def toNumberString (s : JStr) : JStr :=
  if isHex s then hexToNumberString s else s

/-- Reference hex numeral, fuel-based so that it is structurally recursive
(and hence kernel-computable); the fuel only needs to exceed the number of
digits. -/
def natToHexCharsAux : Nat → Nat → List Char
  | 0, _ => []
  | fuel + 1, n =>
      if n < 16 then [hexDigitChar n]
      else natToHexCharsAux fuel (n / 16) ++ [hexDigitChar (n % 16)]

/-- Reference hex numeral of `n` (most significant digit first). -/
def natToHexChars (n : Nat) : List Char := natToHexCharsAux (n + 1) n

/-- The `0x`-prefixed hexadecimal encoding of `n`. -/
def mkHexString (n : Nat) : JStr := '0' :: 'x' :: natToHexChars n

/-! ## Data model

JS values that flow through the service on the paths the claims concern. -/

/-- Embedded JS value. -/
inductive JsValue where
  | vFalse : JsValue
  | vTrue : JsValue
  | vNull : JsValue
  | vStr : JStr → JsValue
  | vNum : Nat → JsValue
deriving DecidableEq, Repr

/-- `toNumberString` lifted to JS values: only strings satisfy the
`typeof str === 'string'` side of `isHex`, so every non-string value
passes through unchanged. -/
def toNumberStringV : JsValue → JsValue
  | JsValue.vStr s => if isHex s then JsValue.vStr (hexToNumberString s) else JsValue.vStr s
  | v => v

/-- Decimal digit value. -/
def decDigitVal (c : Char) : Nat := c.toNat - 48

/-- Base-10 parse of a decimal string. -/
def parseDecChars (l : JStr) : Nat :=
  l.foldl (fun a c => a * 10 + decDigitVal c) 0

/-- Simplified model of the JS `Number(...)` narrowing conversion applied to
the output of `toNumberString` (exact only within the native safe-integer
range; no claim in this development depends on its value). -/
def jsNumber : JsValue → Nat
  | JsValue.vNum n => n
  | JsValue.vStr s => parseDecChars s
  | JsValue.vTrue => 1
  | _ => 0

/-- The nested `status` object of a syncing-subscription result
(source lines 108-115). -/
structure SyncStatusObj where
  StartingBlock : JsValue
  CurrentBlock : JsValue
  HighestBlock : JsValue
  KnownStates : JsValue
  PulledStates : JsValue
deriving DecidableEq, Repr

/-- Payload of a syncing-subscription event: the strict comparisons
`result === false` and `result === true` of the source are the first two
constructors; any other delivered result is an object carrying `status`. -/
inductive SyncPayload where
  | pFalse : SyncPayload
  | pTrue : SyncPayload
  | pStatus : SyncStatusObj → SyncPayload
deriving DecidableEq, Repr

/-- A block header object (`number` and `timestamp` fields). -/
structure HeaderObj where
  number : JsValue
  timestamp : JsValue
deriving DecidableEq, Repr

/-- Payload of a newHeads-subscription event: the `result` field is either a
present (truthy) header object or absent/falsy (`none`), matching the
`if (!subscriptionResult) return` guard of the source. -/
structure HeadsPayload where
  result : Option HeaderObj
deriving DecidableEq, Repr

/-- Payload delivered with a subscription event; each feed delivers its own
shape and each handler acts only on the shape of its own feed. -/
inductive SubPayload where
  | syncP : SyncPayload → SubPayload
  | headsP : HeadsPayload → SubPayload
deriving DecidableEq, Repr

/-- Redux actions dispatched outward by the service. -/
inductive Action where
  | updateNetwork : JsValue → Action
  | updateSyncMode : JsValue → Action
  | gethStarting : Action
  | gethStarted : Action
  | gethConnected : Action
  | gethDisconnected : Action
  | gethStopping : Action
  | gethStopped : Action
  | gethError : JsValue → Action
  | newBlock : Nat → Nat → Action
  | updateSyncing : JsValue → JsValue → JsValue → JsValue → JsValue → Action
  | updatePeerCount : JsValue → Action
deriving DecidableEq, Repr

/-- RPC requests issued through `geth.rpc` (method names preserved from the
source: eth_subscribe with params newHeads or syncing, eth_unsubscribe with
the subscription id, eth_syncing, eth_getBlockByNumber, net_peerCount). -/
inductive Rpc where
  | ethSubscribeNewHeads : Rpc
  | ethSubscribeSyncing : Rpc
  | ethUnsubscribe : Nat → Rpc
  | ethSyncing : Rpc
  | ethGetBlockByNumber : Rpc
  | netPeerCount : Rpc
deriving DecidableEq, Repr

/-- Outward effect of a service step, in program order. -/
inductive Eff where
  | rpc : Rpc → Eff
  | disp : Action → Eff
  | setConfigEff : Eff
  | startProc : Eff
  | stopProc : Eff
deriving DecidableEq, Repr

/-- Handler identity on the emitter.  Arrow closures created at registration
time and bare method references are distinct JS object references, hence
distinct constructors. -/
inductive Handler where
  | cStarting : Handler
  | cStarted : Handler
  | cConnect : Handler
  | cStopping : Handler
  | cStopped : Handler
  | cDisconnect : Handler
  | cError : Handler
  | cSyncResult : Handler
  | cHeadsResult : Handler
  | mOnStarting : Handler
  | mOnStarted : Handler
  | mOnConnect : Handler
  | mOnStopping : Handler
  | mOnStopped : Handler
  | mOnDisconnect : Handler
  | mOnError : Handler
  | mOnSyncingSubscriptionResult : Handler
  | mOnNewHeadsSubscriptionResult : Handler
deriving DecidableEq, Repr

/-- Lifecycle event names. -/
inductive LEvent where
  | starting : LEvent
  | started : LEvent
  | connect : LEvent
  | stopping : LEvent
  | stopped : LEvent
  | disconnect : LEvent
  | error : LEvent
deriving DecidableEq, Repr

/-- Emitter registration key: a named lifecycle event or an opaque
subscription id. -/
inductive EKey where
  | lifecycle : LEvent → EKey
  | sub : Nat → EKey
deriving DecidableEq, Repr

/-- Kind of an in-flight `eth_subscribe` request (the continuation attached
to its promise is determined by the kind). -/
inductive PendKind where
  | pSyncing : PendKind
  | pNewHeads : PendKind
deriving DecidableEq, Repr

/-- The mutable fields of the `GethService` instance together with the
listener table of the `geth` emitter and the set of in-flight
`eth_subscribe` requests whose `.then`/`await` continuation has not yet
run. -/
structure SState where
  syncingSubscriptionId : Option Nat
  newHeadsSubscriptionId : Option Nat
  listeners : List (EKey × Handler)
  pendingSubs : List PendKind
  peerTimer : Bool
deriving DecidableEq, Repr

/-! ## Emitter primitives -/

/-- `geth.on(key, handler)`: appends one registration. -/
def onReg (st : SState) (k : EKey) (h : Handler) : SState :=
  { st with listeners := st.listeners ++ [(k, h)] }

/-- `geth.removeListener(key, handler)`: removes at most one registration
whose key and handler reference both match. -/
def removeListener (k : EKey) (h : Handler) : List (EKey × Handler) → List (EKey × Handler)
  | [] => []
  | p :: rest => if p.1 = k ∧ p.2 = h then rest else p :: removeListener k h rest

/-- Handlers registered under a key, in registration order (the snapshot an
emitter `emit` iterates over). -/
def listenersFor (k : EKey) : List (EKey × Handler) → List Handler
  | [] => []
  | p :: rest => if p.1 = k then p.2 :: listenersFor k rest else listenersFor k rest

/-! ## Service methods (source lines 24-231)

Each method is a pure function from the service state (and the data the
method reads from its collaborators) to the successor state and the ordered
outward effects. -/

/-- The effective configuration read back by `geth.getConfig()`. -/
structure Config where
  network : JsValue
  syncMode : JsValue
deriving DecidableEq, Repr

/-- Source lines 54-62: seven `geth.on` registrations, each with a fresh
arrow closure as the handler argument. -/
def createListenerPairs : List (EKey × Handler) :=
  [(EKey.lifecycle LEvent.starting, Handler.cStarting),
   (EKey.lifecycle LEvent.started, Handler.cStarted),
   (EKey.lifecycle LEvent.connect, Handler.cConnect),
   (EKey.lifecycle LEvent.stopping, Handler.cStopping),
   (EKey.lifecycle LEvent.stopped, Handler.cStopped),
   (EKey.lifecycle LEvent.disconnect, Handler.cDisconnect),
   (EKey.lifecycle LEvent.error, Handler.cError)]

/-- Source lines 64-72: seven `geth.removeListener` calls, each passing the
bare method reference (`this.onStarting`, ...) as the handler argument. -/
def removeListenerPairs : List (EKey × Handler) :=
  [(EKey.lifecycle LEvent.starting, Handler.mOnStarting),
   (EKey.lifecycle LEvent.started, Handler.mOnStarted),
   (EKey.lifecycle LEvent.connect, Handler.mOnConnect),
   (EKey.lifecycle LEvent.stopping, Handler.mOnStopping),
   (EKey.lifecycle LEvent.stopped, Handler.mOnStopped),
   (EKey.lifecycle LEvent.disconnect, Handler.mOnDisconnect),
   (EKey.lifecycle LEvent.error, Handler.mOnError)]

/-- `createListeners(dispatch)`. -/
def createListeners (st : SState) : SState :=
  { st with listeners := st.listeners ++ createListenerPairs }

/-- `removeListeners()`: the seven removals in source order (innermost
first). -/
def removeListeners (st : SState) : SState :=
  { st with listeners :=
      (removeListenerPairs.foldl (fun l p => removeListener p.1 p.2 l) st.listeners) }

/-- `start(config, dispatch)` (source lines 29-43): apply the config, start
the process, dispatch the effective network and syncMode, start the
peer-count interval and register the lifecycle listeners. -/
def start (st : SState) (config : Config) : SState × List Eff :=
  (createListeners { st with peerTimer := true },
   [Eff.setConfigEff, Eff.startProc,
    Eff.disp (Action.updateNetwork config.network),
    Eff.disp (Action.updateSyncMode config.syncMode)])

/-- `startNewHeadsSubscription(dispatch)` (source lines 204-211): issue
`eth_subscribe(['newHeads'])`; the `.then` continuation (record the id and
register the result closure) becomes a pending request of kind
`pNewHeads`. -/
def startNewHeadsSubscription (st : SState) : SState × List Eff :=
  ({ st with pendingSubs := st.pendingSubs ++ [PendKind.pNewHeads] },
   [Eff.rpc Rpc.ethSubscribeNewHeads])

/-- `startSyncingSubscription(dispatch)` (source lines 213-219): issue
`eth_subscribe(['syncing'])`; the awaited continuation becomes a pending
request of kind `pSyncing`. -/
def startSyncingSubscription (st : SState) : SState × List Eff :=
  ({ st with pendingSubs := st.pendingSubs ++ [PendKind.pSyncing] },
   [Eff.rpc Rpc.ethSubscribeSyncing])

/-- The continuation of a resolved `eth_subscribe` request (source lines
205-209 and 214-218): store the subscription id in the corresponding field
and register the result closure under the id. -/
def resolveSubscribe (st : SState) (k : PendKind) (sid : Nat) : SState :=
  match k with
  | PendKind.pNewHeads =>
      onReg { st with newHeadsSubscriptionId := some sid } (EKey.sub sid) Handler.cHeadsResult
  | PendKind.pSyncing =>
      onReg { st with syncingSubscriptionId := some sid } (EKey.sub sid) Handler.cSyncResult

/-- `unsubscribeSyncingSubscription` (source lines 140-151): no-op when the
id field is already null; otherwise issue `eth_unsubscribe`, attempt a
listener removal by bare method reference, and null the field. -/
def unsubscribeSyncingSubscription (st : SState) : SState × List Eff :=
  match st.syncingSubscriptionId with
  | none => (st, [])
  | some sid =>
      ({ st with syncingSubscriptionId := none,
                 listeners := removeListener (EKey.sub sid)
                   Handler.mOnSyncingSubscriptionResult st.listeners },
       [Eff.rpc (Rpc.ethUnsubscribe sid)])

/-- `unsubscribeNewHeadsSubscription` (source lines 128-138). -/
def unsubscribeNewHeadsSubscription (st : SState) : SState × List Eff :=
  match st.newHeadsSubscriptionId with
  | none => (st, [])
  | some sid =>
      ({ st with newHeadsSubscriptionId := none,
                 listeners := removeListener (EKey.sub sid)
                   Handler.mOnNewHeadsSubscriptionResult st.listeners },
       [Eff.rpc (Rpc.ethUnsubscribe sid)])

/-- `stop()` (source lines 45-52): stop the process, cancel the interval,
run both unsubscribe helpers, then `removeListeners`. -/
def stop (st : SState) : SState × List Eff :=
  let r1 := unsubscribeSyncingSubscription { st with peerTimer := false }
  let r2 := unsubscribeNewHeadsSubscription r1.1
  (removeListeners r2.1, Eff.stopProc :: (r1.2 ++ r2.2))

/-- `onSyncingSubscriptionResult(result, dispatch)` (source lines 96-126). -/
def onSyncingSubscriptionResult (st : SState) (result : SyncPayload) : SState × List Eff :=
  match result with
  | SyncPayload.pFalse =>
      let r1 := startNewHeadsSubscription st
      let r2 := unsubscribeSyncingSubscription r1.1
      (r2.1, r1.2 ++ r2.2)
  | SyncPayload.pTrue => (st, [])
  | SyncPayload.pStatus status =>
      (st, [Eff.disp (Action.updateSyncing status.StartingBlock status.CurrentBlock
        status.HighestBlock status.KnownStates status.PulledStates)])

/-- `onNewHeadsSubscriptionResult(result, dispatch)` (source lines 82-94). -/
def onNewHeadsSubscriptionResult (st : SState) (result : HeadsPayload) : SState × List Eff :=
  match result.result with
  | none => (st, [])
  | some hdr =>
      (st, [Eff.disp (Action.newBlock (jsNumber (toNumberStringV hdr.number))
        (jsNumber (toNumberStringV hdr.timestamp)))])

/-- `onConnect(dispatch)` (source lines 161-186): dispatch the connected
action; after the settle delay, fetch the latest block and dispatch it, then
run the one-shot `eth_syncing` query and branch on its result.  The
request/response round trips of `eth_getBlockByNumber` and `eth_syncing` are
fused into this step, with the responses supplied by the environment. -/
def onConnect (st : SState) (ethSyncingResult : JsValue) (latestBlock : HeaderObj) :
    SState × List Eff :=
  let preEffs := [Eff.disp Action.gethConnected, Eff.rpc Rpc.ethGetBlockByNumber,
    Eff.disp (Action.newBlock (jsNumber (toNumberStringV latestBlock.number))
      (jsNumber (toNumberStringV latestBlock.timestamp))),
    Eff.rpc Rpc.ethSyncing]
  if ethSyncingResult = JsValue.vFalse then
    let r := startNewHeadsSubscription st
    (r.1, preEffs ++ r.2)
  else
    let r := startSyncingSubscription st
    (r.1, preEffs ++ r.2)

/-- `updatePeerCount(dispatch)` (source lines 221-225): the `net_peerCount`
query result is awaited with no surrounding try/catch, so a rejected query
propagates out of the method; a fulfilled query is normalized and
dispatched. -/
def updatePeerCount (rpcResult : Except JsValue JsValue) : Except JsValue (List Eff) :=
  match rpcResult with
  | Except.error e => Except.error e
  | Except.ok hexPeerCount =>
      Except.ok [Eff.rpc Rpc.netPeerCount,
        Eff.disp (Action.updatePeerCount (toNumberStringV hexPeerCount))]

/-- Did the method return normally (the rejection was caught)? -/
def caughtOk : Except JsValue (List Eff) → Bool
  | Except.ok _ => true
  | Except.error _ => false

/-- The repeating 3000 ms interval started by `start` (source lines 38-41):
each tick independently invokes `updatePeerCount` and ignores the returned
promise, so the timer keeps firing regardless of earlier outcomes. -/
def pollerRun (ticks : List (Except JsValue JsValue)) : List (Except JsValue (List Eff)) :=
  ticks.map updatePeerCount

/-! ## Environment events and the step system

The single logical thread of control is driven by asynchronous callbacks.
Each environment event runs one callback (or one emitter delivery) to
completion.  A subscription response can only resolve when a matching
request is in flight; the subscription events of a feed are delivered to
whatever listeners are registered under the feed's id at delivery time. -/

/-- Environment events driving the service. -/
inductive Ev where
  | eStart : Config → Ev
  | eConnect : JsValue → HeaderObj → Ev
  | eSubResolve : PendKind → Nat → Ev
  | eSubEvent : Nat → SubPayload → Ev
  | eStop : Ev
deriving DecidableEq, Repr

/-- Occurrences of a pending kind among the in-flight subscribe requests. -/
def countPend (k : PendKind) : List PendKind → Nat
  | [] => 0
  | a :: rest => (if a = k then 1 else 0) + countPend k rest

/-- Consume one in-flight request of the given kind (its promise settles). -/
def consumePend (k : PendKind) : List PendKind → List PendKind
  | [] => []
  | a :: rest => if a = k then rest else a :: consumePend k rest

/-- One emitter listener invoked with a subscription payload: the closure
registered for the syncing feed runs `onSyncingSubscriptionResult`, the one
registered for the newHeads feed runs `onNewHeadsSubscriptionResult`; any
other handler is not a subscription-result closure and contributes
nothing. -/
def handleSub (st : SState) (h : Handler) (p : SubPayload) : SState × List Eff :=
  match h, p with
  | Handler.cSyncResult, SubPayload.syncP q => onSyncingSubscriptionResult st q
  | Handler.cHeadsResult, SubPayload.headsP q => onNewHeadsSubscriptionResult st q
  | _, _ => (st, [])

/-- Run the snapshot of listeners for a delivered subscription event, in
registration order, threading the state. -/
def runSubHandlers (p : SubPayload) : List Handler → SState → SState × List Eff
  | [], st => (st, [])
  | h :: rest, st =>
      let r1 := handleSub st h p
      let r2 := runSubHandlers p rest r1.1
      (r2.1, r1.2 ++ r2.2)

/-- Run the snapshot of listeners for a delivered `connect` event: each
`cConnect` closure runs `onConnect`; other handlers registered under the
key contribute nothing. -/
def runConnectHandlers (syncRes : JsValue) (blk : HeaderObj) :
    List Handler → SState → SState × List Eff
  | [], st => (st, [])
  | h :: rest, st =>
      let r1 := if h = Handler.cConnect then onConnect st syncRes blk else (st, [])
      let r2 := runConnectHandlers syncRes blk rest r1.1
      (r2.1, r1.2 ++ r2.2)

/-- One environment event executed to completion. -/
def step (st : SState) : Ev → SState × List Eff
  | Ev.eStart cfg => start st cfg
  | Ev.eStop => stop st
  | Ev.eConnect syncRes blk =>
      runConnectHandlers syncRes blk (listenersFor (EKey.lifecycle LEvent.connect) st.listeners) st
  | Ev.eSubResolve k sid =>
      if 0 < countPend k st.pendingSubs then
        (resolveSubscribe { st with pendingSubs := consumePend k st.pendingSubs } k sid, [])
      else (st, [])
  | Ev.eSubEvent sid p =>
      runSubHandlers p (listenersFor (EKey.sub sid) st.listeners) st

/-- Run a sequence of environment events, collecting the outward effects in
order. -/
def run : SState → List Ev → SState × List Eff
  | st, [] => (st, [])
  | st, ev :: rest =>
      let r1 := step st ev
      let r2 := run r1.1 rest
      (r2.1, r1.2 ++ r2.2)

/-- The fresh service: no subscription ids (the JS fields are `undefined`,
which the `!id` guards treat the same as null), no listeners, no in-flight
requests, no timer. -/
def initState : SState :=
  { syncingSubscriptionId := none, newHeadsSubscriptionId := none,
    listeners := [], pendingSubs := [], peerTimer := false }

/-- Number of `start()` invocations in a trace. -/
def countStarts : List Ev → Nat
  | [] => 0
  | Ev.eStart _ :: rest => 1 + countStarts rest
  | _ :: rest => countStarts rest

/-- Number of `connect` events in a trace. -/
def countConnects : List Ev → Nat
  | [] => 0
  | Ev.eConnect _ _ :: rest => 1 + countConnects rest
  | _ :: rest => countConnects rest

/-- Occurrences of an effect in an effect list. -/
def countEff (e : Eff) : List Eff → Nat
  | [] => 0
  | x :: rest => (if x = e then 1 else 0) + countEff e rest

/-! ## Predicates used by the feed-exclusivity invariant -/

/-- Is the handler a bare method reference (the values `removeListeners` and
the unsubscribe helpers pass to `geth.removeListener`)? -/
def isMethodRef : Handler → Bool
  | Handler.mOnStarting => true
  | Handler.mOnStarted => true
  | Handler.mOnConnect => true
  | Handler.mOnStopping => true
  | Handler.mOnStopped => true
  | Handler.mOnDisconnect => true
  | Handler.mOnError => true
  | Handler.mOnSyncingSubscriptionResult => true
  | Handler.mOnNewHeadsSubscriptionResult => true
  | _ => false

/-- Is the handler a subscription-result closure? -/
def isSubHandler : Handler → Bool
  | Handler.cSyncResult => true
  | Handler.cHeadsResult => true
  | _ => false

/-- Numeric weight of a boolean. -/
def boolNat (b : Bool) : Nat := if b then 1 else 0

/-- Is a syncing-feed result closure registered anywhere?  Such a closure is
only ever registered when a `pSyncing` request resolves, and (because every
removal attempt passes a method reference) it is never removed again. -/
def hasSyncListener : List (EKey × Handler) → Bool
  | [] => false
  | p :: rest => if p.2 = Handler.cSyncResult then true else hasSyncListener rest

/-- Occurrences of a handler in the listener table. -/
def countHandler (h : Handler) : List (EKey × Handler) → Nat
  | [] => 0
  | p :: rest => (if p.2 = h then 1 else 0) + countHandler h rest

/-- Occurrences of a handler in a handler list. -/
def countHs (h : Handler) : List Handler → Nat
  | [] => 0
  | x :: rest => (if x = h then 1 else 0) + countHs h rest

/-- Inductive invariant of the subscription manager, indexed by the number
`s` of `start()` invocations and the number `c` of `connect` events observed
so far.  It is preserved by every step as long as `s ≤ 1` and `c ≤ 1`, and
its last field is the feed-exclusivity property. -/
structure InvGen (st : SState) (s c : Nat) : Prop where
  noM : ∀ p ∈ st.listeners, isMethodRef p.2 = false
  connCount : countHandler Handler.cConnect st.listeners ≤ s
  zeroInit : c = 0 → st.syncingSubscriptionId = none ∧ st.newHeadsSubscriptionId = none ∧
    st.pendingSubs = [] ∧ ∀ p ∈ st.listeners, isSubHandler p.2 = false
  syncBudget : countPend PendKind.pSyncing st.pendingSubs +
    boolNat (hasSyncListener st.listeners) ≤ c
  headsPendClear : 0 < countPend PendKind.pNewHeads st.pendingSubs →
    st.syncingSubscriptionId = none
  syncPendClear : 0 < countPend PendKind.pSyncing st.pendingSubs →
    st.newHeadsSubscriptionId = none
  notBothPend : ¬(0 < countPend PendKind.pSyncing st.pendingSubs ∧
    0 < countPend PendKind.pNewHeads st.pendingSubs)
  syncEvidence : st.syncingSubscriptionId.isSome = true →
    hasSyncListener st.listeners = true
  notBoth : ¬(st.syncingSubscriptionId.isSome = true ∧
    st.newHeadsSubscriptionId.isSome = true)

/-! ## Concrete fixtures used by the closed theorems -/

/-- A concrete effective configuration. -/
def cfg0 : Config := { network := JsValue.vStr ['m'], syncMode := JsValue.vStr ['f'] }

/-- A concrete latest-block header. -/
def blk0 : HeaderObj :=
  { number := JsValue.vStr ['0', 'x', '1'], timestamp := JsValue.vStr ['0', 'x', '2'] }

/-- A sync status whose `StartingBlock` is the hex string "0xa". -/
def cexStatus : SyncStatusObj :=
  { StartingBlock := JsValue.vStr ['0', 'x', 'a'], CurrentBlock := JsValue.vNum 150,
    HighestBlock := JsValue.vNum 200, KnownStates := JsValue.vNum 10,
    PulledStates := JsValue.vNum 5 }

/-- start; connect (node reports it is syncing); the syncing subscription
resolves with id 1; stop. -/
def c1preTrace : List Ev :=
  [Ev.eStart cfg0, Ev.eConnect JsValue.vTrue blk0,
   Ev.eSubResolve PendKind.pSyncing 1, Ev.eStop]

/-- A syncing-feed result carrying a status object, delivered on id 1 after
`stop()` has completed. -/
def c1staleStatusEv : Ev := Ev.eSubEvent 1 (SubPayload.syncP (SyncPayload.pStatus cexStatus))

/-- A syncing-feed `false` sentinel delivered on id 1 after `stop()`. -/
def c1staleFalseEv : Ev := Ev.eSubEvent 1 (SubPayload.syncP SyncPayload.pFalse)

/-- Reconnection trace: start; connect while syncing; the sync feed resolves
with id 1; a second connect now reports not-syncing; the newHeads feed
resolves with id 2; one further (no-op) event shows the state persists. -/
def c5trace : List Ev :=
  [Ev.eStart cfg0, Ev.eConnect JsValue.vTrue blk0, Ev.eSubResolve PendKind.pSyncing 1,
   Ev.eConnect JsValue.vFalse blk0, Ev.eSubResolve PendKind.pNewHeads 2,
   Ev.eSubResolve PendKind.pSyncing 5]

/-- A witness trace with a single start and a single connect: the node is
syncing, the sync feed activates, delivers the `false` sentinel (handoff),
and the newHeads feed activates. -/
def c5witnessTrace : List Ev :=
  [Ev.eStart cfg0, Ev.eConnect JsValue.vTrue blk0, Ev.eSubResolve PendKind.pSyncing 1,
   Ev.eSubEvent 1 (SubPayload.syncP SyncPayload.pFalse),
   Ev.eSubResolve PendKind.pNewHeads 2, Ev.eStop]

/-- A concrete state with an active syncing feed (id 1). -/
def syncActiveState : SState :=
  { syncingSubscriptionId := some 1, newHeadsSubscriptionId := none,
    listeners := createListenerPairs ++ [(EKey.sub 1, Handler.cSyncResult)],
    pendingSubs := [], peerTimer := true }

/-- A concrete state with both ids set (for the stop witnesses). -/
def bothSetState : SState :=
  { syncingSubscriptionId := some 3, newHeadsSubscriptionId := some 4,
    listeners := [], pendingSubs := [], peerTimer := true }

/-! # Theorems -/

/-! ## Numeric roundtrip facts -/

theorem hexDigitVal_hexDigitChar : ∀ d < 16, hexDigitVal (hexDigitChar d) = d := by
  decide

theorem foldl_hex_natToHexCharsAux :
    ∀ fuel n, n < fuel →
      ∀ a : Nat, (natToHexCharsAux fuel n).foldl (fun a c => a * 16 + hexDigitVal c) a =
        a * 16 ^ (natToHexCharsAux fuel n).length + n := by
  intro fuel
  induction fuel with
  | zero => intro n hn; omega
  | succ f ih =>
    intro n hn a
    by_cases h : n < 16
    · simp only [natToHexCharsAux, h, if_true, List.foldl_cons, List.foldl_nil,
        List.length_cons, List.length_nil]
      rw [hexDigitVal_hexDigitChar n h]
      ring
    · have hdiv : n / 16 < f := by
        have h1 : n / 16 < n := Nat.div_lt_self (by omega) (by omega)
        omega
      simp only [natToHexCharsAux, h, if_false, List.foldl_append, List.foldl_cons,
        List.foldl_nil, List.length_append, List.length_cons, List.length_nil]
      rw [ih (n / 16) hdiv a]
      rw [hexDigitVal_hexDigitChar (n % 16) (Nat.mod_lt n (by omega))]
      have hdm : 16 * (n / 16) + n % 16 = n := Nat.div_add_mod n 16
      have hp : 16 ^ ((natToHexCharsAux f (n / 16)).length + (0 + 1)) =
          16 ^ (natToHexCharsAux f (n / 16)).length * 16 := by
        rw [Nat.add_comm 0 1]
        rw [pow_succ]
      rw [hp]
      nlinarith [hdm]

theorem parseHexDigitsList_natToHexChars (n : Nat) :
    parseHexDigitsList (natToHexChars n) = n := by
  have h := foldl_hex_natToHexCharsAux (n + 1) n (by omega) 0
  simpa [parseHexDigitsList, natToHexChars] using h

/-! ## C7 -/

/-- C7: for every non-negative integer `n` (well beyond the native 53-bit
safe range), `toNumberString` maps the `0x`-prefixed hexadecimal encoding of
`n` to exactly the canonical decimal numeral of `n`, and every string not
prefixed with `0x` passes through unchanged. -/
theorem C7_toNumberString_roundtrip (n : Nat) (s : JStr) (h : isHex s = false) :
    toNumberString (mkHexString n) = (Nat.repr n).data ∧ toNumberString s = s := by
  constructor
  · have hx : isHex (mkHexString n) = true := rfl
    have hdrop : (mkHexString n).drop 2 = natToHexChars n := rfl
    simp only [toNumberString, hx, if_true, hexToNumberString, hdrop,
      parseHexDigitsList_natToHexChars]
  · simp [toNumberString, h]

/-- Closed instance of C7 at a value exceeding the 53-bit safe-integer range
and at a non-hex string. -/
theorem C7_witness :
    isHex ['a', 'b'] = false ∧
    (toNumberString (mkHexString (2 ^ 60 + 7)) = (Nat.repr (2 ^ 60 + 7)).data ∧
      toNumberString ['a', 'b'] = ['a', 'b']) :=
  ⟨by decide, C7_toNumberString_roundtrip (2 ^ 60 + 7) ['a', 'b'] (by decide)⟩

/-! ## C1 -/

/-- C1 (the code violates the claim): after `stop()` completes on a run in
which the syncing feed had become active, a syncing-feed subscription event
delivered on the old id still reaches the registered closure, because the
removal inside `unsubscribeSyncingSubscription` passed the bare method
reference `this.onSyncingSubscriptionResult` rather than the arrow closure
that `startSyncingSubscription` registered.  Concretely: a status payload
produces one outward dispatch (not zero), the `false` sentinel produces an
outward `eth_subscribe(['newHeads'])` call, and the subsequent resolution
mutates `newHeadsSubscriptionId` away from its post-stop value `none`. -/
theorem C1_stale_sync_event_after_stop_dispatches :
    (run initState c1preTrace).1.syncingSubscriptionId = none ∧
    (run initState c1preTrace).1.newHeadsSubscriptionId = none ∧
    (step (run initState c1preTrace).1 c1staleStatusEv).2 =
      [Eff.disp (Action.updateSyncing (JsValue.vStr ['0', 'x', 'a']) (JsValue.vNum 150)
        (JsValue.vNum 200) (JsValue.vNum 10) (JsValue.vNum 5))] ∧
    (step (run initState c1preTrace).1 c1staleFalseEv).2 = [Eff.rpc Rpc.ethSubscribeNewHeads] ∧
    (step (step (run initState c1preTrace).1 c1staleFalseEv).1
      (Ev.eSubResolve PendKind.pNewHeads 9)).1.newHeadsSubscriptionId = some 9 := by
  decide

/-! ## C2 -/

/-- C2 (the code violates the claim): for every lifecycle event,
`createListeners` passes a fresh arrow closure to `geth.on` while
`removeListeners` passes the bare method reference to
`geth.removeListener`; the two handler references differ for every event, so
after `start` followed by `stop` all seven lifecycle registrations are still
present (removal removed nothing). -/
theorem C2_removeListeners_mismatched_references :
    createListenerPairs.map Prod.snd ≠ removeListenerPairs.map Prod.snd ∧
    (∀ q ∈ createListenerPairs, ∀ r ∈ removeListenerPairs, q.2 ≠ r.2) ∧
    (removeListeners (createListeners initState)).listeners = createListenerPairs ∧
    (stop (start initState cfg0).1).1.listeners = createListenerPairs := by
  decide

/-! ## C3 -/

/-- C3 counterexample: when the nested status carries the hex string "0xa"
as `StartingBlock`, the emitted update does not carry the
`toNumberString`-normalized values — the claim that every field is routed
through the normalizer before emission is false at this input. -/
theorem C3_counterexample :
    (onSyncingSubscriptionResult initState (SyncPayload.pStatus cexStatus)).2 ≠
      [Eff.disp (Action.updateSyncing (toNumberStringV cexStatus.StartingBlock)
        (toNumberStringV cexStatus.CurrentBlock) (toNumberStringV cexStatus.HighestBlock)
        (toNumberStringV cexStatus.KnownStates) (toNumberStringV cexStatus.PulledStates))] := by
  decide

/-- C3 as amended: for every sync-status payload that is neither the `false`
nor the `true` sentinel, `onSyncingSubscriptionResult` reads the five fields
StartingBlock, CurrentBlock, HighestBlock, KnownStates, PulledStates of the
nested status object and emits exactly one SyncProgress update with keys
startingBlock, currentBlock, highestBlock, knownStates, pulledStates — but
the field values are emitted verbatim, without being routed through
`toNumberString`; the state is left unchanged. -/
theorem C3_amended_fields_passed_through (st : SState) (status : SyncStatusObj) :
    onSyncingSubscriptionResult st (SyncPayload.pStatus status) =
      (st, [Eff.disp (Action.updateSyncing status.StartingBlock status.CurrentBlock
        status.HighestBlock status.KnownStates status.PulledStates)]) := rfl

/-! ## C8 -/

/-- C8 counterexample: a rejected `net_peerCount` query is not caught —
`updatePeerCount` propagates the rejection instead of returning normally,
so the "caught and reported" part of the claim is false. -/
theorem C8_counterexample :
    caughtOk (updatePeerCount (Except.error JsValue.vNull)) = false := rfl

/-- C8 as amended: a failed `net_peerCount` query is not caught by
`updatePeerCount` (the rejection propagates as an unhandled promise
rejection and nothing is reported), but the repeating timer is not
terminated: every tick invokes `updatePeerCount` independently, so a
failure at one tick leaves every other tick's outcome unchanged and the
poller still processes one query per tick. -/
theorem C8_amended_timer_survives_failure (pre post : List (Except JsValue JsValue))
    (e : JsValue) :
    pollerRun (pre ++ Except.error e :: post) =
      pollerRun pre ++ Except.error e :: pollerRun post ∧
    (pollerRun (pre ++ Except.error e :: post)).length = pre.length + 1 + post.length := by
  constructor
  · simp [pollerRun, updatePeerCount]
  · simp [pollerRun]
    omega

/-! ## C10 -/

/-- C10: a newHeads subscription event whose `result` field is absent or
falsy produces no outward update and no state change; when the field is
present and truthy, exactly one BlockHeader update is dispatched and the
state is still unchanged. -/
theorem C10_falsy_result_no_dispatch (st : SState) (hdr : HeaderObj) :
    onNewHeadsSubscriptionResult st { result := none } = (st, []) ∧
    (onNewHeadsSubscriptionResult st { result := some hdr }).1 = st ∧
    (onNewHeadsSubscriptionResult st { result := some hdr }).2 =
      [Eff.disp (Action.newBlock (jsNumber (toNumberStringV hdr.number))
        (jsNumber (toNumberStringV hdr.timestamp)))] :=
  ⟨rfl, rfl, rfl⟩

/-! ## List counting helpers -/

theorem countPend_append (k : PendKind) (l1 l2 : List PendKind) :
    countPend k (l1 ++ l2) = countPend k l1 + countPend k l2 := by
  induction l1 with
  | nil => simp [countPend]
  | cons a rest ih => simp [countPend, ih]; omega

theorem countEff_append (e : Eff) (l1 l2 : List Eff) :
    countEff e (l1 ++ l2) = countEff e l1 + countEff e l2 := by
  induction l1 with
  | nil => simp [countEff]
  | cons a rest ih => simp [countEff, ih]; omega

/-! ## C6 -/

/-- C6: when the one-shot `eth_syncing` query on connect returns `false`,
`onConnect` issues exactly one `eth_subscribe(['newHeads'])` call and zero
`eth_subscribe(['syncing'])` calls; for every other result it issues exactly
one `eth_subscribe(['syncing'])` call and zero newHeads subscriptions. -/
theorem C6_connect_branch_subscription_counts (st : SState) (blk : HeaderObj)
    (r : JsValue) (h : r ≠ JsValue.vFalse) :
    countEff (Eff.rpc Rpc.ethSubscribeNewHeads) (onConnect st JsValue.vFalse blk).2 = 1 ∧
    countEff (Eff.rpc Rpc.ethSubscribeSyncing) (onConnect st JsValue.vFalse blk).2 = 0 ∧
    countEff (Eff.rpc Rpc.ethSubscribeSyncing) (onConnect st r blk).2 = 1 ∧
    countEff (Eff.rpc Rpc.ethSubscribeNewHeads) (onConnect st r blk).2 = 0 := by
  unfold onConnect
  simp [h, countEff, startNewHeadsSubscription, startSyncingSubscription]

/-- Closed instance of C6 (`eth_syncing` returning the object-producing
truthy sentinel). -/
theorem C6_witness :
    countEff (Eff.rpc Rpc.ethSubscribeNewHeads) (onConnect initState JsValue.vFalse blk0).2 = 1 ∧
    countEff (Eff.rpc Rpc.ethSubscribeSyncing) (onConnect initState JsValue.vFalse blk0).2 = 0 ∧
    countEff (Eff.rpc Rpc.ethSubscribeSyncing) (onConnect initState JsValue.vTrue blk0).2 = 1 ∧
    countEff (Eff.rpc Rpc.ethSubscribeNewHeads) (onConnect initState JsValue.vTrue blk0).2 = 0 :=
  C6_connect_branch_subscription_counts initState blk0 JsValue.vTrue (by decide)

/-! ## C4 -/

/-- C4: when the active sync feed delivers the `false` sentinel, the RPC
calls are issued in the order `eth_subscribe(['newHeads'])` first, then
`eth_unsubscribe` with the sync feed's id; the sync handle is cleared in the
same step, and once the subscribe request resolves the newHeads feed is the
only active feed. -/
theorem C4_handoff_order_and_final_state (st : SState) (sid n : Nat)
    (h : st.syncingSubscriptionId = some sid) :
    (onSyncingSubscriptionResult st SyncPayload.pFalse).2 =
      [Eff.rpc Rpc.ethSubscribeNewHeads, Eff.rpc (Rpc.ethUnsubscribe sid)] ∧
    (onSyncingSubscriptionResult st SyncPayload.pFalse).1.syncingSubscriptionId = none ∧
    (step (onSyncingSubscriptionResult st SyncPayload.pFalse).1
      (Ev.eSubResolve PendKind.pNewHeads n)).1.syncingSubscriptionId = none ∧
    (step (onSyncingSubscriptionResult st SyncPayload.pFalse).1
      (Ev.eSubResolve PendKind.pNewHeads n)).1.newHeadsSubscriptionId = some n := by
  have hpend : 0 < countPend PendKind.pNewHeads
      (st.pendingSubs ++ [PendKind.pNewHeads]) := by
    rw [countPend_append]
    simp [countPend]
  refine ⟨?_, ?_, ?_, ?_⟩ <;>
    simp [onSyncingSubscriptionResult, startNewHeadsSubscription,
      unsubscribeSyncingSubscription, h, step, hpend, resolveSubscribe, onReg]

/-- Closed instance of C4 from a state with an active syncing feed. -/
theorem C4_witness :
    (onSyncingSubscriptionResult syncActiveState SyncPayload.pFalse).2 =
      [Eff.rpc Rpc.ethSubscribeNewHeads, Eff.rpc (Rpc.ethUnsubscribe 1)] ∧
    (onSyncingSubscriptionResult syncActiveState SyncPayload.pFalse).1.syncingSubscriptionId
      = none ∧
    (step (onSyncingSubscriptionResult syncActiveState SyncPayload.pFalse).1
      (Ev.eSubResolve PendKind.pNewHeads 2)).1.syncingSubscriptionId = none ∧
    (step (onSyncingSubscriptionResult syncActiveState SyncPayload.pFalse).1
      (Ev.eSubResolve PendKind.pNewHeads 2)).1.newHeadsSubscriptionId = some 2 :=
  C4_handoff_order_and_final_state syncActiveState 1 2 rfl

/-! ## C9 -/

theorem stop_ids (st : SState) :
    (stop st).1.syncingSubscriptionId = none ∧ (stop st).1.newHeadsSubscriptionId = none := by
  cases hA : st.syncingSubscriptionId <;> cases hB : st.newHeadsSubscriptionId <;>
    simp [stop, unsubscribeSyncingSubscription, unsubscribeNewHeadsSubscription,
      removeListeners, hA, hB]

theorem stop_effs_of_none (st : SState) (hA : st.syncingSubscriptionId = none)
    (hB : st.newHeadsSubscriptionId = none) : (stop st).2 = [Eff.stopProc] := by
  simp [stop, unsubscribeSyncingSubscription, unsubscribeNewHeadsSubscription, hA, hB]

/-- C9: `stop()` is a total function (the embedded method never throws), a
second `stop()` issues no `eth_unsubscribe` at all (so no duplicate
unsubscribe side effects beyond the first call's attempt), each unsubscribe
helper is a strict no-op when its subscription-id field is already null, and
a `stop()` with `start()` never called issues no `eth_unsubscribe`
either. -/
theorem C9_double_stop_safe (st st2 : SState) (sid : Nat)
    (h1 : st2.syncingSubscriptionId = none) (h2 : st2.newHeadsSubscriptionId = none) :
    countEff (Eff.rpc (Rpc.ethUnsubscribe sid)) (stop (stop st).1).2 = 0 ∧
    unsubscribeSyncingSubscription st2 = (st2, []) ∧
    unsubscribeNewHeadsSubscription st2 = (st2, []) ∧
    (stop initState).2 = [Eff.stopProc] := by
  have hids := stop_ids st
  have heffs := stop_effs_of_none (stop st).1 hids.1 hids.2
  refine ⟨?_, ?_, ?_, ?_⟩
  · rw [heffs]
    simp [countEff]
  · simp [unsubscribeSyncingSubscription, h1]
  · simp [unsubscribeNewHeadsSubscription, h2]
  · exact stop_effs_of_none initState rfl rfl

/-- Closed instance of C9: double stop from a state with both feeds set, and
the helpers on the never-started state. -/
theorem C9_witness :
    countEff (Eff.rpc (Rpc.ethUnsubscribe 3)) (stop (stop bothSetState).1).2 = 0 ∧
    unsubscribeSyncingSubscription initState = (initState, []) ∧
    unsubscribeNewHeadsSubscription initState = (initState, []) ∧
    (stop initState).2 = [Eff.stopProc] :=
  C9_double_stop_safe bothSetState initState 3 rfl rfl

/-! ## Structural lemmas for the feed-exclusivity invariant -/

theorem countPend_consumePend_self (k : PendKind) (l : List PendKind) :
    countPend k (consumePend k l) = countPend k l - 1 := by
  induction l with
  | nil => rfl
  | cons a rest ih =>
    by_cases h : a = k
    · simp [consumePend, countPend, h]
    · simp [consumePend, countPend, h, ih]

theorem countPend_consumePend_other (k k2 : PendKind) (hne : k2 ≠ k) (l : List PendKind) :
    countPend k2 (consumePend k l) = countPend k2 l := by
  induction l with
  | nil => rfl
  | cons a rest ih =>
    by_cases h : a = k
    · subst h
      simp [consumePend, countPend, Ne.symm hne]
    · simp [consumePend, countPend, h, ih]

theorem removeListener_noop (k : EKey) (h : Handler) (l : List (EKey × Handler))
    (hm : isMethodRef h = true) (hl : ∀ p ∈ l, isMethodRef p.2 = false) :
    removeListener k h l = l := by
  induction l with
  | nil => rfl
  | cons p rest ih =>
    have hp : isMethodRef p.2 = false := hl p (List.mem_cons_self p rest)
    have hne : ¬(p.1 = k ∧ p.2 = h) := by
      rintro ⟨-, h2⟩
      rw [h2, hm] at hp
      cases hp
    simp only [removeListener, if_neg hne]
    rw [ih (fun q hq => hl q (List.mem_cons_of_mem p hq))]

theorem foldl_removeListener_noop (pairs : List (EKey × Handler)) :
    ∀ l : List (EKey × Handler), (∀ q ∈ pairs, isMethodRef q.2 = true) →
      (∀ p ∈ l, isMethodRef p.2 = false) →
      pairs.foldl (fun l2 q => removeListener q.1 q.2 l2) l = l := by
  induction pairs with
  | nil => intro l _ _; rfl
  | cons q rest ih =>
    intro l hp hl
    rw [List.foldl_cons,
      removeListener_noop q.1 q.2 l (hp q (List.mem_cons_self q rest)) hl]
    exact ih l (fun q2 hq2 => hp q2 (List.mem_cons_of_mem q hq2)) hl

theorem removeListeners_noop (st : SState)
    (hl : ∀ p ∈ st.listeners, isMethodRef p.2 = false) :
    removeListeners st = st := by
  have h := foldl_removeListener_noop removeListenerPairs st.listeners (by decide) hl
  simp [removeListeners, h]

theorem hasSyncListener_append (l1 l2 : List (EKey × Handler)) :
    hasSyncListener (l1 ++ l2) = (hasSyncListener l1 || hasSyncListener l2) := by
  induction l1 with
  | nil => simp [hasSyncListener]
  | cons p rest ih =>
    by_cases h : p.2 = Handler.cSyncResult <;> simp [hasSyncListener, h, ih]

theorem countHandler_append (h : Handler) (l1 l2 : List (EKey × Handler)) :
    countHandler h (l1 ++ l2) = countHandler h l1 + countHandler h l2 := by
  induction l1 with
  | nil => simp [countHandler]
  | cons p rest ih => simp [countHandler, ih]; omega

theorem hasSyncListener_eq_false (l : List (EKey × Handler))
    (h : ∀ p ∈ l, isSubHandler p.2 = false) : hasSyncListener l = false := by
  induction l with
  | nil => rfl
  | cons p rest ih =>
    have hp : isSubHandler p.2 = false := h p (List.mem_cons_self p rest)
    have hne : p.2 ≠ Handler.cSyncResult := by
      intro he
      rw [he] at hp
      cases hp
    simp only [hasSyncListener, if_neg hne]
    exact ih (fun q hq => h q (List.mem_cons_of_mem p hq))

theorem mem_listenersFor_hasSync (k : EKey) (l : List (EKey × Handler))
    (h : Handler.cSyncResult ∈ listenersFor k l) : hasSyncListener l = true := by
  induction l with
  | nil => simp [listenersFor] at h
  | cons p rest ih =>
    by_cases hk : p.1 = k
    · simp only [listenersFor, if_pos hk] at h
      rcases List.mem_cons.mp h with h1 | h2
      · simp [hasSyncListener, h1.symm]
      · by_cases hp : p.2 = Handler.cSyncResult
        · simp [hasSyncListener, hp]
        · simp only [hasSyncListener, if_neg hp]
          exact ih h2
    · simp only [listenersFor, if_neg hk] at h
      by_cases hp : p.2 = Handler.cSyncResult
      · simp [hasSyncListener, hp]
      · simp only [hasSyncListener, if_neg hp]
        exact ih h

theorem countHs_listenersFor (h : Handler) (k : EKey) (l : List (EKey × Handler)) :
    countHs h (listenersFor k l) ≤ countHandler h l := by
  induction l with
  | nil => simp [listenersFor, countHs, countHandler]
  | cons p rest ih =>
    by_cases hk : p.1 = k
    · by_cases hp : p.2 = h <;>
        simp only [listenersFor, if_pos hk, countHs, countHandler, if_pos, if_neg, hp] <;>
        omega
    · by_cases hp : p.2 = h <;>
        simp only [listenersFor, if_neg hk, countHandler, hp, if_pos, if_neg] <;>
        omega

theorem onConnect_state (st : SState) (r : JsValue) (blk : HeaderObj) :
    (onConnect st r blk).1 =
      { st with pendingSubs := st.pendingSubs ++
          [if r = JsValue.vFalse then PendKind.pNewHeads else PendKind.pSyncing] } := by
  by_cases h : r = JsValue.vFalse <;>
    simp [onConnect, h, startNewHeadsSubscription, startSyncingSubscription]

theorem stop_state_of_noM (st : SState)
    (hl : ∀ p ∈ st.listeners, isMethodRef p.2 = false) :
    (stop st).1 =
      { st with peerTimer := false, syncingSubscriptionId := none,
                newHeadsSubscriptionId := none } := by
  obtain ⟨A, B, L, P, T⟩ := st
  have hL1 : ∀ k : EKey, removeListener k Handler.mOnSyncingSubscriptionResult L = L :=
    fun k => removeListener_noop k Handler.mOnSyncingSubscriptionResult L rfl hl
  have hL2 : ∀ k : EKey, removeListener k Handler.mOnNewHeadsSubscriptionResult L = L :=
    fun k => removeListener_noop k Handler.mOnNewHeadsSubscriptionResult L rfl hl
  have hRL : ∀ (A2 B2 : Option Nat) (P2 : List PendKind) (T2 : Bool),
      removeListeners ⟨A2, B2, L, P2, T2⟩ = ⟨A2, B2, L, P2, T2⟩ :=
    fun A2 B2 P2 T2 => removeListeners_noop ⟨A2, B2, L, P2, T2⟩ hl
  cases A <;> cases B <;>
    simp [stop, unsubscribeSyncingSubscription, unsubscribeNewHeadsSubscription, hRL,
      hL1, hL2]

theorem syncFalse_state (st : SState)
    (hl : ∀ p ∈ st.listeners, isMethodRef p.2 = false) :
    (onSyncingSubscriptionResult st SyncPayload.pFalse).1 =
      { st with syncingSubscriptionId := none,
                pendingSubs := st.pendingSubs ++ [PendKind.pNewHeads] } := by
  obtain ⟨A, B, L, P, T⟩ := st
  have hL1 : ∀ k : EKey, removeListener k Handler.mOnSyncingSubscriptionResult L = L :=
    fun k => removeListener_noop k Handler.mOnSyncingSubscriptionResult L rfl hl
  cases A <;>
    simp [onSyncingSubscriptionResult, startNewHeadsSubscription,
      unsubscribeSyncingSubscription, hL1]

/-! ## Invariant preservation -/

theorem invGen_handleSub (st : SState) (h : Handler) (p : SubPayload) (s c : Nat)
    (hi : InvGen st s c) (hc : c ≤ 1)
    (hEv : h = Handler.cSyncResult → hasSyncListener st.listeners = true) :
    InvGen (handleSub st h p).1 s c ∧ (handleSub st h p).1.listeners = st.listeners := by
  cases h <;> cases p
  all_goals try exact ⟨hi, rfl⟩
  · -- cSyncResult with a syncing payload
    rename_i q
    cases q
    case pTrue => exact ⟨hi, rfl⟩
    case pStatus s0 => exact ⟨hi, rfl⟩
    case pFalse =>
      have hsy : hasSyncListener st.listeners = true := hEv rfl
      have hcS : countPend PendKind.pSyncing st.pendingSubs = 0 := by
        have hb := hi.syncBudget
        rw [hsy] at hb
        simp [boolNat] at hb
        omega
      have hst : (handleSub st Handler.cSyncResult (SubPayload.syncP SyncPayload.pFalse)).1 =
          { st with syncingSubscriptionId := none,
                    pendingSubs := st.pendingSubs ++ [PendKind.pNewHeads] } :=
        syncFalse_state st hi.noM
      rw [hst]
      refine ⟨⟨?_, ?_, ?_, ?_, ?_, ?_, ?_, ?_, ?_⟩, rfl⟩
      · exact hi.noM
      · exact hi.connCount
      · intro h0
        exfalso
        have hb := hi.syncBudget
        rw [hsy, h0] at hb
        simp [boolNat] at hb
      · simpa [countPend_append, countPend] using hi.syncBudget
      · intro _
        rfl
      · intro hx
        rw [countPend_append] at hx
        simp [countPend] at hx
        exact hi.syncPendClear hx
      · rintro ⟨h1, -⟩
        rw [countPend_append] at h1
        simp [countPend] at h1
        omega
      · intro hx
        simp at hx
      · rintro ⟨hx, -⟩
        simp at hx
  · -- cHeadsResult with a newHeads payload
    rename_i q
    obtain ⟨r⟩ := q
    cases r <;> exact ⟨hi, rfl⟩

theorem invGen_runSubHandlers (p : SubPayload) (s c : Nat) (hc : c ≤ 1) :
    ∀ (hs : List Handler) (st : SState), InvGen st s c →
      (Handler.cSyncResult ∈ hs → hasSyncListener st.listeners = true) →
      InvGen (runSubHandlers p hs st).1 s c ∧
        (runSubHandlers p hs st).1.listeners = st.listeners := by
  intro hs
  induction hs with
  | nil => intro st hi _; exact ⟨hi, rfl⟩
  | cons h rest ih =>
    intro st hi hEv
    have h1 := invGen_handleSub st h p s c hi hc
      (fun hh => hEv (by rw [hh]; exact List.mem_cons_self _ _))
    have h2 := ih (handleSub st h p).1 h1.1
      (fun hm => by rw [h1.2]; exact hEv (List.mem_cons_of_mem h hm))
    simp only [runSubHandlers]
    exact ⟨h2.1, by rw [h2.2, h1.2]⟩

theorem invGen_subEvent (st : SState) (s c : Nat) (hc : c ≤ 1) (hi : InvGen st s c)
    (sid : Nat) (p : SubPayload) :
    InvGen (step st (Ev.eSubEvent sid p)).1 s c := by
  have h := invGen_runSubHandlers p s c hc (listenersFor (EKey.sub sid) st.listeners) st hi
    (fun hm => mem_listenersFor_hasSync _ _ hm)
  exact h.1

theorem invGen_resolve (st : SState) (s c : Nat) (hc : c ≤ 1) (hi : InvGen st s c)
    (k : PendKind) (sid : Nat) :
    InvGen (step st (Ev.eSubResolve k sid)).1 s c := by
  simp only [step]
  by_cases hp : 0 < countPend k st.pendingSubs
  · rw [if_pos hp]
    cases k
    case _ =>
      have hB : st.newHeadsSubscriptionId = none := hi.syncPendClear hp
      have hN0 : countPend PendKind.pNewHeads st.pendingSubs = 0 := by
        by_contra hne
        exact hi.notBothPend ⟨hp, by omega⟩
      have hsyF : hasSyncListener st.listeners = false := by
        have hb := hi.syncBudget
        cases hsl : hasSyncListener st.listeners
        · rfl
        · rw [hsl] at hb
          simp [boolNat] at hb
          omega
      refine ⟨?_, ?_, ?_, ?_, ?_, ?_, ?_, ?_, ?_⟩
      · -- noM over appended listener
        simp only [resolveSubscribe, onReg]
        intro q hq
        rcases List.mem_append.mp hq with hq1 | hq2
        · exact hi.noM q hq1
        · rcases List.mem_singleton.mp hq2 with rfl
          rfl
      · simp only [resolveSubscribe, onReg]
        rw [countHandler_append]
        simpa [countHandler] using hi.connCount
      · intro h0
        exfalso
        obtain ⟨-, -, hP, -⟩ := hi.zeroInit h0
        rw [hP] at hp
        simp [countPend] at hp
      · simp only [resolveSubscribe, onReg]
        rw [countPend_consumePend_self, hasSyncListener_append]
        have hone : hasSyncListener [(EKey.sub sid, Handler.cSyncResult)] = true := by
          simp [hasSyncListener]
        rw [hsyF, hone]
        have hb := hi.syncBudget
        rw [hsyF] at hb
        simp [boolNat] at hb ⊢
        omega
      · intro hx
        exfalso
        simp only [resolveSubscribe, onReg] at hx
        rw [countPend_consumePend_other PendKind.pSyncing PendKind.pNewHeads
          (by decide)] at hx
        omega
      · intro _
        simpa [resolveSubscribe, onReg] using hB
      · rintro ⟨-, h2⟩
        simp only [resolveSubscribe, onReg] at h2
        rw [countPend_consumePend_other PendKind.pSyncing PendKind.pNewHeads
          (by decide)] at h2
        omega
      · intro _
        simp only [resolveSubscribe, onReg]
        rw [hasSyncListener_append]
        simp [hasSyncListener]
      · rintro ⟨-, h2⟩
        simp only [resolveSubscribe, onReg] at h2
        rw [hB] at h2
        simp at h2
    case _ =>
      have hA : st.syncingSubscriptionId = none := hi.headsPendClear hp
      have hS0 : countPend PendKind.pSyncing st.pendingSubs = 0 := by
        by_contra hne
        exact hi.notBothPend ⟨by omega, hp⟩
      refine ⟨?_, ?_, ?_, ?_, ?_, ?_, ?_, ?_, ?_⟩
      · simp only [resolveSubscribe, onReg]
        intro q hq
        rcases List.mem_append.mp hq with hq1 | hq2
        · exact hi.noM q hq1
        · rcases List.mem_singleton.mp hq2 with rfl
          rfl
      · simp only [resolveSubscribe, onReg]
        rw [countHandler_append]
        simpa [countHandler] using hi.connCount
      · intro h0
        exfalso
        obtain ⟨-, -, hP, -⟩ := hi.zeroInit h0
        rw [hP] at hp
        simp [countPend] at hp
      · simp only [resolveSubscribe, onReg]
        rw [hasSyncListener_append,
          countPend_consumePend_other PendKind.pNewHeads PendKind.pSyncing (by decide)]
        have hone : hasSyncListener [(EKey.sub sid, Handler.cHeadsResult)] = false := by
          simp [hasSyncListener]
        rw [hone]
        simpa using hi.syncBudget
      · intro _
        simpa [resolveSubscribe, onReg] using hA
      · intro hx
        exfalso
        simp only [resolveSubscribe, onReg] at hx
        rw [countPend_consumePend_other PendKind.pNewHeads PendKind.pSyncing
          (by decide)] at hx
        omega
      · rintro ⟨h1, -⟩
        simp only [resolveSubscribe, onReg] at h1
        rw [countPend_consumePend_other PendKind.pNewHeads PendKind.pSyncing
          (by decide)] at h1
        omega
      · intro hx
        simp only [resolveSubscribe, onReg] at hx
        rw [hA] at hx
        simp at hx
      · rintro ⟨h1, -⟩
        simp only [resolveSubscribe, onReg] at h1
        rw [hA] at h1
        simp at h1
  · rw [if_neg hp]
    exact hi

theorem invGen_start (st : SState) (s c : Nat) (hi : InvGen st s c) (cfg : Config) :
    InvGen (start st cfg).1 (s + 1) c := by
  have hpairsM : ∀ p ∈ createListenerPairs, isMethodRef p.2 = false := by decide
  have hpairsS : ∀ p ∈ createListenerPairs, isSubHandler p.2 = false := by decide
  have hpairsSync : hasSyncListener createListenerPairs = false := by decide
  have hpairsCC : countHandler Handler.cConnect createListenerPairs = 1 := by decide
  simp only [start, createListeners]
  refine ⟨?_, ?_, ?_, ?_, ?_, ?_, ?_, ?_, ?_⟩
  · intro q hq
    rcases List.mem_append.mp hq with hq1 | hq2
    · exact hi.noM q hq1
    · exact hpairsM q hq2
  · rw [countHandler_append, hpairsCC]
    have := hi.connCount
    omega
  · intro h0
    obtain ⟨hA, hB, hP, hSub⟩ := hi.zeroInit h0
    refine ⟨hA, hB, hP, ?_⟩
    intro q hq
    rcases List.mem_append.mp hq with hq1 | hq2
    · exact hSub q hq1
    · exact hpairsS q hq2
  · rw [hasSyncListener_append, hpairsSync]
    simpa using hi.syncBudget
  · exact hi.headsPendClear
  · exact hi.syncPendClear
  · exact hi.notBothPend
  · intro hx
    rw [hasSyncListener_append, hpairsSync]
    simpa using hi.syncEvidence hx
  · exact hi.notBoth

theorem invGen_stop (st : SState) (s c : Nat) (hi : InvGen st s c) :
    InvGen (stop st).1 s c := by
  rw [stop_state_of_noM st hi.noM]
  refine ⟨?_, ?_, ?_, ?_, ?_, ?_, ?_, ?_, ?_⟩
  · exact hi.noM
  · exact hi.connCount
  · intro h0
    obtain ⟨-, -, hP, hSub⟩ := hi.zeroInit h0
    exact ⟨rfl, rfl, hP, hSub⟩
  · exact hi.syncBudget
  · intro _
    rfl
  · intro _
    rfl
  · exact hi.notBothPend
  · intro hx
    simp at hx
  · rintro ⟨hx, -⟩
    simp at hx

theorem runConnect_no_cConnect (r : JsValue) (blk : HeaderObj) :
    ∀ (hs : List Handler) (st : SState), countHs Handler.cConnect hs = 0 →
      (runConnectHandlers r blk hs st).1 = st := by
  intro hs
  induction hs with
  | nil => intro st _; rfl
  | cons h rest ih =>
    intro st hc
    have hne : h ≠ Handler.cConnect := by
      intro he
      rw [he] at hc
      simp [countHs] at hc
    have hrest : countHs Handler.cConnect rest = 0 := by
      simpa [countHs, hne] using hc
    simp only [runConnectHandlers, if_neg hne]
    exact ih st hrest

theorem invGen_connectAux (r : JsValue) (blk : HeaderObj) (s : Nat) :
    ∀ (hs : List Handler) (st : SState), countHs Handler.cConnect hs ≤ 1 →
      st.syncingSubscriptionId = none → st.newHeadsSubscriptionId = none →
      st.pendingSubs = [] →
      (∀ p ∈ st.listeners, isSubHandler p.2 = false) →
      (∀ p ∈ st.listeners, isMethodRef p.2 = false) →
      countHandler Handler.cConnect st.listeners ≤ s →
      InvGen (runConnectHandlers r blk hs st).1 s 1 := by
  intro hs
  induction hs with
  | nil =>
    intro st _ hA hB hP hSub hM hCC
    simp only [runConnectHandlers]
    refine ⟨hM, hCC, ?_, ?_, ?_, ?_, ?_, ?_, ?_⟩
    · intro h0
      exact absurd h0 one_ne_zero
    · rw [hP, hasSyncListener_eq_false st.listeners hSub]
      simp [countPend, boolNat]
    · intro _
      exact hA
    · intro _
      exact hB
    · rw [hP]
      rintro ⟨h1, -⟩
      simp [countPend] at h1
    · intro hx
      rw [hA] at hx
      simp at hx
    · rintro ⟨hx, -⟩
      rw [hA] at hx
      simp at hx
  | cons h rest ih =>
    intro st hc hA hB hP hSub hM hCC
    by_cases hcc : h = Handler.cConnect
    · subst hcc
      have hrest : countHs Handler.cConnect rest = 0 := by
        simp [countHs] at hc
        omega
      have hstate : (runConnectHandlers r blk (Handler.cConnect :: rest) st).1 =
          (onConnect st r blk).1 := by
        simp only [runConnectHandlers, if_pos rfl]
        exact runConnect_no_cConnect r blk rest (onConnect st r blk).1 hrest
      rw [hstate, onConnect_state, hP]
      refine ⟨hM, hCC, ?_, ?_, ?_, ?_, ?_, ?_, ?_⟩
      · intro h0
        exact absurd h0 one_ne_zero
      · rw [hasSyncListener_eq_false st.listeners hSub]
        by_cases hr : r = JsValue.vFalse <;> simp [hr, countPend, boolNat]
      · intro _
        exact hA
      · intro _
        exact hB
      · rintro ⟨h1, h2⟩
        by_cases hr : r = JsValue.vFalse
        · rw [hr] at h1
          simp [countPend] at h1
        · simp only [if_neg hr] at h2
          simp [countPend] at h2
      · intro hx
        rw [hA] at hx
        simp at hx
      · rintro ⟨hx, -⟩
        rw [hA] at hx
        simp at hx
    · have hrest : countHs Handler.cConnect rest ≤ 1 := by
        simp [countHs, hcc] at hc
        omega
      simp only [runConnectHandlers, if_neg hcc]
      exact ih st hrest hA hB hP hSub hM hCC

theorem invGen_connect (st : SState) (s : Nat) (hs1 : s ≤ 1) (hi : InvGen st s 0)
    (r : JsValue) (blk : HeaderObj) :
    InvGen (step st (Ev.eConnect r blk)).1 s 1 := by
  obtain ⟨hA, hB, hP, hSub⟩ := hi.zeroInit rfl
  simp only [step]
  refine invGen_connectAux r blk s _ st ?_ hA hB hP hSub hi.noM hi.connCount
  calc countHs Handler.cConnect (listenersFor (EKey.lifecycle LEvent.connect) st.listeners)
      ≤ countHandler Handler.cConnect st.listeners := countHs_listenersFor _ _ _
    _ ≤ s := hi.connCount
    _ ≤ 1 := hs1

theorem invGen_run :
    ∀ (evs : List Ev) (st : SState) (s c : Nat), InvGen st s c →
      s + countStarts evs ≤ 1 → c + countConnects evs ≤ 1 →
      InvGen (run st evs).1 (s + countStarts evs) (c + countConnects evs) := by
  intro evs
  induction evs with
  | nil =>
    intro st s c hi _ _
    simpa [run, countStarts, countConnects] using hi
  | cons ev rest ih =>
    intro st s c hi hbs hbc
    cases ev with
    | eStart cfg =>
      simp only [countStarts] at hbs ⊢
      simp only [countConnects] at hbc ⊢
      have h1 : InvGen (step st (Ev.eStart cfg)).1 (s + 1) c := by
        simp only [step]
        exact invGen_start st s c hi cfg
      have h2 := ih (step st (Ev.eStart cfg)).1 (s + 1) c h1 (by omega) (by omega)
      simp only [run]
      have harith : s + (1 + countStarts rest) = s + 1 + countStarts rest := by omega
      rw [harith]
      exact h2
    | eConnect r blk =>
      simp only [countStarts] at hbs ⊢
      simp only [countConnects] at hbc ⊢
      have hc0 : c = 0 := by omega
      subst hc0
      have hs1 : s ≤ 1 := by omega
      have h1 : InvGen (step st (Ev.eConnect r blk)).1 s 1 := invGen_connect st s hs1 hi r blk
      have h2 := ih (step st (Ev.eConnect r blk)).1 s 1 h1 (by omega) (by omega)
      simp only [run]
      have harith : 0 + (1 + countConnects rest) = 1 + countConnects rest := by omega
      rw [harith]
      exact h2
    | eSubResolve k sid =>
      simp only [countStarts] at hbs ⊢
      simp only [countConnects] at hbc ⊢
      have h1 : InvGen (step st (Ev.eSubResolve k sid)).1 s c :=
        invGen_resolve st s c (by omega) hi k sid
      have h2 := ih (step st (Ev.eSubResolve k sid)).1 s c h1 (by omega) (by omega)
      simp only [run]
      exact h2
    | eSubEvent sid p =>
      simp only [countStarts] at hbs ⊢
      simp only [countConnects] at hbc ⊢
      have h1 : InvGen (step st (Ev.eSubEvent sid p)).1 s c :=
        invGen_subEvent st s c (by omega) hi sid p
      have h2 := ih (step st (Ev.eSubEvent sid p)).1 s c h1 (by omega) (by omega)
      simp only [run]
      exact h2
    | eStop =>
      simp only [countStarts] at hbs ⊢
      simp only [countConnects] at hbc ⊢
      have h1 : InvGen (step st Ev.eStop).1 s c := by
        simp only [step]
        exact invGen_stop st s c hi
      have h2 := ih (step st Ev.eStop).1 s c h1 (by omega) (by omega)
      simp only [run]
      exact h2

/-! ## C5 -/

/-- C5 counterexample: after a reconnection (start; connect while syncing;
sync feed resolves with id 1; a second connect reports not-syncing; the
newHeads feed resolves with id 2; one further no-op step), the manager is in
a reachable, persistent state in which BOTH `syncingSubscriptionId` and
`newHeadsSubscriptionId` are non-null — no handoff step is involved, so the
state lasts longer than the instant of handoff.  The claim as stated is
therefore false on the code. -/
theorem C5_counterexample :
    (run initState c5trace).1.syncingSubscriptionId = some 1 ∧
    (run initState c5trace).1.newHeadsSubscriptionId = some 2 := by
  decide

/-- C5 as amended: in every execution with at most one `start()` invocation
and at most one `connect` event (no re-entrant start and no reconnection —
reconnection is exactly what the counterexample exploits, and the spec
leaves re-entrant start undefined), every reachable state of the manager
has at most one feed handle non-null: the syncing handle and the newHeads
handle are never both non-null, not even at the instant of handoff. -/
theorem C5_amended_single_connect_exclusivity (evs : List Ev)
    (h1 : countStarts evs ≤ 1) (h2 : countConnects evs ≤ 1) :
    ¬((run initState evs).1.syncingSubscriptionId.isSome = true ∧
      (run initState evs).1.newHeadsSubscriptionId.isSome = true) := by
  have hinit : InvGen initState 0 0 := by
    refine ⟨?_, ?_, ?_, ?_, ?_, ?_, ?_, ?_, ?_⟩ <;>
      simp [initState, countPend, countHandler, hasSyncListener, boolNat]
  have h := invGen_run evs initState 0 0 hinit (by omega) (by omega)
  exact h.notBoth

/-- Closed instance of C5 as amended, on a full single-connect lifecycle
with a handoff (start; connect while syncing; sync feed active; `false`
sentinel; handoff to newHeads; stop). -/
theorem C5_witness :
    countStarts c5witnessTrace ≤ 1 ∧ countConnects c5witnessTrace ≤ 1 ∧
    ¬((run initState c5witnessTrace).1.syncingSubscriptionId.isSome = true ∧
      (run initState c5witnessTrace).1.newHeadsSubscriptionId.isSome = true) :=
  ⟨by decide, by decide,
    C5_amended_single_connect_exclusivity c5witnessTrace (by decide) (by decide)⟩

end GethService
